import Mathlib

/-!
Shallow embedding of the splunk-token-operator core:
the Splunk ACS HTTP client (`internal/splunk/client.go`),
the SplunkToken reconciler (`internal/controller/splunktoken_controller.go`)
and the ClusterDeployment reconciler
(`internal/controller/clusterdeployment/clusterdeployment_controller.go`).

HTTP traffic is modelled by an environment that supplies, for each request
the code can issue, either a transport failure or a response consisting of a
status code and the results of decoding the body under the two shapes the Go
code tries (`errorResponse` and `tokenResponse`).  The Kubernetes store is
modelled the same way: the environment supplies the result of each read and
the success of each write, and a reconcile pass returns its result together
with the ordered trace of remote calls and store writes it attempted
(an attempted operation that fails aborts the pass, so every event before
the last one in a trace succeeded).
-/

namespace SplunkOperator

/-- `v1alpha1.SplunkTokenSpec`: name, default index and allowed indexes of a
HEC token. -/
structure SplunkTokenSpec where
  name : String
  defaultIndex : String
  allowedIndexes : List String
deriving DecidableEq, Repr

/-- `splunkapi.HECToken`: a spec together with the secret token value. -/
structure HECToken where
  spec : SplunkTokenSpec
  value : String
deriving DecidableEq, Repr

/-- `splunkapi.errorResponse`: the structured error body `{code, message}`. -/
structure ErrorResponse where
  code : String
  message : String
deriving DecidableEq, Repr

/-- `errorResponse.Error()`: the rendered error string. -/
def ErrorResponse.render (e : ErrorResponse) : String :=
  "received error response " ++ e.code ++ ": " ++ e.message

/-- An HTTP response as the client observes it: the status code and the
results of decoding the body as an `errorResponse` or as a `tokenResponse`
(`none` models a body on which `json.Decode` fails for that shape). -/
structure HttpResponse where
  statusCode : Nat
  errorBody : Option ErrorResponse
  tokenBody : Option HECToken
deriving DecidableEq, Repr

/-- Outcome of `http.Client.Do`: transport failure or a response. -/
inductive HttpOutcome where
  | transportFailure
  | response (r : HttpResponse)
deriving DecidableEq, Repr

/-- Errors a client call can return. -/
inductive ClientError where
  | transport
  | decodeFailure
  | remote (e : ErrorResponse)
deriving DecidableEq, Repr

/-- `Client.getToken`: authenticated GET of `<collection>/<name>`; a status
`>= 400` decodes the error body, otherwise the full token record (with the
secret value) is decoded and returned. -/
def getToken (res : HttpOutcome) : Except ClientError HECToken :=
  match res with
  | .transportFailure => .error .transport
  | .response r =>
    if 400 ≤ r.statusCode then
      match r.errorBody with
      | none => .error .decodeFailure
      | some e => .error (.remote e)
    else
      match r.tokenBody with
      | none => .error .decodeFailure
      | some t => .ok t

/-- Network environment of one `CreateToken` call: the outcome of the POST
and, for each credential name, the outcome of a GET of that name. -/
structure CreateEnv where
  postResponse : HttpOutcome
  getResponse : String → HttpOutcome

/-- Everything observable about one `CreateToken` call: its result, the spec
serialized into the POST payload, and which name (if any) was read by the
follow-up GET. -/
structure CreateOutcome where
  result : Except ClientError HECToken
  payloadSpec : SplunkTokenSpec
  readName : Option String
deriving Repr

/-- `Client.CreateToken`: appends the default index to the allowed indexes
when non-empty and absent, POSTs the spec, treats any status `>= 400` other
than 409 as a decoded remote error, and on every other outcome performs a
follow-up read of the named credential and returns that read's result. -/
def CreateToken (env : CreateEnv) (token : HECToken) : CreateOutcome :=
  let spec :=
    if token.spec.defaultIndex ≠ "" ∧ token.spec.defaultIndex ∉ token.spec.allowedIndexes then
      { token.spec with allowedIndexes := token.spec.allowedIndexes ++ [token.spec.defaultIndex] }
    else
      token.spec
  match env.postResponse with
  | .transportFailure => ⟨.error .transport, spec, none⟩
  | .response r =>
    if 400 ≤ r.statusCode ∧ r.statusCode ≠ 409 then
      match r.errorBody with
      | none => ⟨.error .decodeFailure, spec, none⟩
      | some e => ⟨.error (.remote e), spec, none⟩
    else
      ⟨getToken (env.getResponse spec.name), spec, some spec.name⟩

/-- `Client.DeleteToken`: DELETE of `<collection>/<name>`; 404 is success
(already gone), 202 (`http.StatusAccepted`) is success, every other status
decodes the error body and returns it as a failure. `none` is success. -/
def DeleteToken (res : HttpOutcome) : Option ClientError :=
  match res with
  | .transportFailure => some .transport
  | .response r =>
    if r.statusCode = 404 then
      none
    else if r.statusCode ≠ 202 then
      match r.errorBody with
      | none => some .decodeFailure
      | some e => some (.remote e)
    else
      none

/-! ### Constants from `config/config.go` and the controllers -/

def TokenFinalizer : String := "splunktoken.managed.openshift.io/finalizer"

def OwnedObjectName : String := "splunk-hec-token"

def SecretDataKey : String := "outputs.conf"

def ClusterIDLabel : String := "api.openshift.com/id"

def ClusterTypeLabel : String := "ext-hypershift.openshift.io/cluster-type"

def TokenObjectName : String := "cluster"

/-- `config.General`: max token age and the Splunk instance name. Time is
modelled as integers. -/
structure General where
  tokenMaxAge : Int
  splunkInstance : String
deriving DecidableEq, Repr

/-- A stored `SplunkToken` object: spec, timestamps, finalizers and owner
references (names of the owning objects). -/
structure SplunkToken where
  name : String
  creationTimestamp : Int
  deletionTimestamp : Option Int
  finalizers : List String
  ownerRefs : List String
  spec : SplunkTokenSpec
deriving DecidableEq, Repr

/-- `controllerutil.AddFinalizer`: appends the finalizer when absent;
the boolean reports whether the object changed. -/
def addFinalizer (t : SplunkToken) (f : String) : SplunkToken × Bool :=
  if f ∈ t.finalizers then (t, false)
  else ({ t with finalizers := t.finalizers ++ [f] }, true)

/-- `controllerutil.RemoveFinalizer`: removes every occurrence of the
finalizer. -/
def removeFinalizer (t : SplunkToken) (f : String) : SplunkToken :=
  { t with finalizers := t.finalizers.filter (fun x => x ≠ f) }

/-- A stored `corev1.Secret`: data map, immutability flag and the controller
reference (name of the owning SplunkToken) once set. -/
structure Secret where
  name : String
  inNamespace : String
  data : List (String × String)
  immutable : Bool
  ownerRef : Option String
deriving DecidableEq, Repr

/-- `SplunkTokenReconciler.collectorUri`. -/
def collectorUri (cfg : General) : String :=
  "https://http-inputs-" ++ cfg.splunkInstance ++ ".splunkcloud.com:443"

/-- The `outputs.conf` fragment built by `newSecretObject` via
`fmt.Appendf` from the template
`[httpout]\nhttpEventCollectorToken = %s\nuri = %s`. -/
def outputsConf (tokenValue uri : String) : String :=
  "[httpout]\nhttpEventCollectorToken = " ++ tokenValue ++ "\nuri = " ++ uri

/-- `SplunkTokenReconciler.newSecretObject`: the immutable secret holding
the config fragment under the single fixed key. -/
def newSecretObject (cfg : General) (reqNamespace tokenValue : String) : Secret :=
  { name := OwnedObjectName
    inNamespace := reqNamespace
    data := [(SecretDataKey, outputsConf tokenValue (collectorUri cfg))]
    immutable := true
    ownerRef := none }

/-- `controllerutil.SetControllerReference` on a secret owned by a
SplunkToken. -/
def setControllerReference (owner : SplunkToken) (s : Secret) : Secret :=
  { s with ownerRef := some owner.name }

/-- Result of a store read. -/
inductive GetResult (α : Type) where
  | notFound
  | found (a : α)
  | storeError
deriving DecidableEq, Repr

/-- Remote calls and store writes a SplunkToken reconcile pass can attempt,
in order. Store reads are not traced. -/
inductive Event where
  | remoteDeleteToken (name : String)
  | updateToken (t : SplunkToken)
  | deleteTokenObject (t : SplunkToken)
  | remoteCreateToken (spec : SplunkTokenSpec)
  | createSecret (s : Secret)
deriving DecidableEq, Repr

def Event.isRemoteCall : Event → Bool
  | .remoteDeleteToken _ => true
  | .remoteCreateToken _ => true
  | _ => false

def Event.isStoreWrite : Event → Bool
  | .updateToken _ => true
  | .deleteTokenObject _ => true
  | .createSecret _ => true
  | _ => false

/-- Errors a reconcile pass can return. -/
inductive ReconcileError where
  | store
  | client (e : ClientError)
deriving DecidableEq, Repr

/-- Environment of one SplunkToken reconcile pass: the current time, the
results of the two store reads, the results of the remote calls (behind the
`TokenManager` interface), and whether each store write succeeds. -/
structure TokenEnv where
  now : Int
  getTokenResult : GetResult SplunkToken
  remoteDelete : Option ClientError
  updateOk : Bool
  deleteObjectOk : Bool
  getSecretResult : GetResult Secret
  remoteCreate : Except ClientError HECToken
  createSecretOk : Bool

/-- Tail of the create branch of `SplunkTokenReconciler.Reconcile`: call
`CreateToken`, build the owned immutable secret from the returned value, and
create it. -/
def createPhase (cfg : General) (env : TokenEnv) (reqNamespace : String)
    (tokenObject : SplunkToken) : Except ReconcileError Unit × List Event :=
  match env.remoteCreate with
  | .error e => (.error (.client e), [.remoteCreateToken tokenObject.spec])
  | .ok hecToken =>
    let secret :=
      setControllerReference tokenObject (newSecretObject cfg reqNamespace hecToken.value)
    if env.createSecretOk then
      (.ok (), [.remoteCreateToken tokenObject.spec, .createSecret secret])
    else
      (.error .store, [.remoteCreateToken tokenObject.spec, .createSecret secret])

/-- `SplunkTokenReconciler.Reconcile`: one pass of the state machine.
Returns the pass result and the ordered trace of attempted remote calls and
store writes; a failing operation aborts the pass immediately after its
event. -/
def TokenReconcile (cfg : General) (env : TokenEnv) (reqNamespace : String) :
    Except ReconcileError Unit × List Event :=
  match env.getTokenResult with
  | .storeError => (.error .store, [])
  | .notFound => (.ok (), [])
  | .found tokenObject =>
    match tokenObject.deletionTimestamp with
    | some _ =>
      match env.remoteDelete with
      | some e => (.error (.client e), [.remoteDeleteToken tokenObject.spec.name])
      | none =>
        let updated := removeFinalizer tokenObject TokenFinalizer
        if env.updateOk then
          (.ok (), [.remoteDeleteToken tokenObject.spec.name, .updateToken updated])
        else
          (.error .store, [.remoteDeleteToken tokenObject.spec.name, .updateToken updated])
    | none =>
      if tokenObject.creationTimestamp + cfg.tokenMaxAge < env.now then
        if env.deleteObjectOk then
          (.ok (), [.deleteTokenObject tokenObject])
        else
          (.error .store, [.deleteTokenObject tokenObject])
      else
        match env.getSecretResult with
        | .storeError => (.error .store, [])
        | .found _ => (.ok (), [])
        | .notFound =>
          let fin := addFinalizer tokenObject TokenFinalizer
          if fin.2 then
            if env.updateOk then
              let cont := createPhase cfg env reqNamespace fin.1
              (cont.1, .updateToken fin.1 :: cont.2)
            else
              (.error .store, [.updateToken fin.1])
          else
            createPhase cfg env reqNamespace fin.1

/-- The stored SplunkToken after a trace of events: each successful
`updateToken` replaces the stored object. -/
def storedToken (init : SplunkToken) : List Event → SplunkToken
  | [] => init
  | .updateToken t :: rest => storedToken t rest
  | _ :: rest => storedToken init rest

/-! ### ClusterDeployment reconciler -/

/-- A `hivev1.ClusterDeployment` as the reconciler reads it: its name and
labels. -/
structure ClusterDeployment where
  name : String
  labels : List (String × String)
deriving DecidableEq, Repr

/-- `config.SplunkIndexes`. -/
structure SplunkIndexes where
  defaultIndex : String
  allowedIndexes : List String
deriving DecidableEq, Repr

/-- `splunkIndexConfig`: the per-cluster-type index configurations. -/
structure SplunkIndexConfig where
  classic : SplunkIndexes
  hcp : SplunkIndexes
deriving DecidableEq, Repr

/-- The per-type index selection of `ClusterDeploymentReconciler.Reconcile`:
the HCP configuration when the cluster-type label equals
"management-cluster", otherwise (any other value, or no label, which reads
as the empty string) the classic configuration. -/
def computedIndexes (cfg : SplunkIndexConfig) (cd : ClusterDeployment) : SplunkIndexes :=
  if (List.lookup ClusterTypeLabel cd.labels).getD "" = "management-cluster" then cfg.hcp
  else cfg.classic

/-- The zero-valued SplunkToken the reconciler constructs before the store
read (only namespace and name are set). -/
def emptySplunkToken : SplunkToken :=
  { name := TokenObjectName
    creationTimestamp := 0
    deletionTimestamp := none
    finalizers := []
    ownerRefs := []
    spec := { name := "", defaultIndex := "", allowedIndexes := [] } }

/-- `controllerutil.SetOwnerReference`: appends the owner when absent. -/
def setOwnerReference (owner : ClusterDeployment) (t : SplunkToken) : SplunkToken :=
  if owner.name ∈ t.ownerRefs then t
  else { t with ownerRefs := t.ownerRefs ++ [owner.name] }

/-- Errors of a ClusterDeployment reconcile pass. -/
inductive CDError where
  | store
  | labelNotFound (label : String)
deriving DecidableEq, Repr

/-- Store writes a ClusterDeployment reconcile pass can attempt. -/
inductive CDEvent where
  | updateToken (t : SplunkToken)
  | createToken (t : SplunkToken)
deriving DecidableEq, Repr

/-- Environment of one ClusterDeployment reconcile pass. -/
structure CDEnv where
  getClusterResult : GetResult ClusterDeployment
  getTokenResult : GetResult SplunkToken
  updateOk : Bool
  createOk : Bool
deriving Repr

/-- `ClusterDeploymentReconciler.Reconcile`: resolve the identity label,
select the per-type indexes, fetch the well-known SplunkToken, no-op when
the computed indexes equal the stored spec's (a missing token reads as the
zero value), otherwise write the recomputed spec with a refreshed owner
reference — update when the token existed, create when it did not. -/
def CDReconcile (cfg : SplunkIndexConfig) (env : CDEnv) :
    Except CDError Unit × List CDEvent :=
  match env.getClusterResult with
  | .storeError => (.error .store, [])
  | .notFound => (.error .store, [])
  | .found cd =>
    match List.lookup ClusterIDLabel cd.labels with
    | none => (.error (.labelNotFound ClusterIDLabel), [])
    | some tokenName =>
      let idx := computedIndexes cfg cd
      match env.getTokenResult with
      | .storeError => (.error .store, [])
      | tokenGet =>
        let tokenExists := tokenGet matches .found _
        let splunktoken :=
          match tokenGet with
          | .found t => t
          | _ => emptySplunkToken
        if idx.defaultIndex = splunktoken.spec.defaultIndex ∧
            idx.allowedIndexes = splunktoken.spec.allowedIndexes then
          (.ok (), [])
        else
          let newToken :=
            setOwnerReference cd
              { splunktoken with
                  spec :=
                    { name := tokenName
                      defaultIndex := idx.defaultIndex
                      allowedIndexes := idx.allowedIndexes } }
          if tokenExists then
            if env.updateOk then (.ok (), [.updateToken newToken])
            else (.error .store, [.updateToken newToken])
          else
            if env.createOk then (.ok (), [.createToken newToken])
            else (.error .store, [.createToken newToken])

/-! ### Theorems about the client -/

/-- The spec serialized into the POST payload is the input spec with the
default index appended to the allowed indexes when non-empty and absent. -/
theorem createToken_payloadSpec (env : CreateEnv) (token : HECToken) :
    (CreateToken env token).payloadSpec =
      if token.spec.defaultIndex ≠ "" ∧ token.spec.defaultIndex ∉ token.spec.allowedIndexes then
        { token.spec with allowedIndexes := token.spec.allowedIndexes ++ [token.spec.defaultIndex] }
      else token.spec := by
  unfold CreateToken
  cases env.postResponse with
  | transportFailure => rfl
  | response r =>
    dsimp only
    split
    · cases r.errorBody <;> rfl
    · rfl

/-- C4: if `defaultIndex` is non-empty and not a member of `allowedIndexes`,
the outgoing request payload carries `allowedIndexes` equal to the original
list with `defaultIndex` appended exactly once at the end; if `defaultIndex`
is empty or already present, `allowedIndexes` is sent unchanged; the name
and default index are sent unchanged in every case. -/
theorem createToken_default_index_append (env : CreateEnv) (token : HECToken) :
    ((token.spec.defaultIndex ≠ "" ∧ token.spec.defaultIndex ∉ token.spec.allowedIndexes) →
      (CreateToken env token).payloadSpec.allowedIndexes
        = token.spec.allowedIndexes ++ [token.spec.defaultIndex])
  ∧ ((token.spec.defaultIndex = "" ∨ token.spec.defaultIndex ∈ token.spec.allowedIndexes) →
      (CreateToken env token).payloadSpec.allowedIndexes = token.spec.allowedIndexes)
  ∧ (CreateToken env token).payloadSpec.name = token.spec.name
  ∧ (CreateToken env token).payloadSpec.defaultIndex = token.spec.defaultIndex := by
  rw [createToken_payloadSpec]
  by_cases h : token.spec.defaultIndex ≠ "" ∧ token.spec.defaultIndex ∉ token.spec.allowedIndexes
  · rw [if_pos h]
    refine ⟨fun _ => rfl, fun hc => absurd hc ?_, rfl, rfl⟩
    push_neg
    exact ⟨h.1, h.2⟩
  · rw [if_neg h]
    exact ⟨fun hc => absurd hc h, fun _ => rfl, rfl, rfl⟩

def c4Env : CreateEnv := ⟨.transportFailure, fun _ => .transportFailure⟩

def c4Token : HECToken :=
  { spec := { name := "bar", defaultIndex := "audit_index", allowedIndexes := ["other_index"] }
    value := "" }

/-- Witness for C4 at the spec's own example: `defaultIndex="audit_index"`,
`allowedIndexes=["other_index"]`. -/
theorem createToken_default_index_append_witness :
    (CreateToken c4Env c4Token).payloadSpec.allowedIndexes
      = c4Token.spec.allowedIndexes ++ [c4Token.spec.defaultIndex] :=
  (createToken_default_index_append c4Env c4Token).1 ⟨by decide, by decide⟩

/-- C5: `DeleteToken` returns success on a 404 response and on the
successful-deletion status 202; every other status is decoded as a
structured remote error `{code, message}` and returned as a failure,
rendered as `received error response <id>: <text>`. -/
theorem deleteToken_status_dispatch (r : HttpResponse) :
    (r.statusCode = 404 → DeleteToken (.response r) = none)
  ∧ (r.statusCode = 202 → DeleteToken (.response r) = none)
  ∧ (∀ e, r.statusCode ≠ 404 → r.statusCode ≠ 202 → r.errorBody = some e →
      DeleteToken (.response r) = some (.remote e)
        ∧ ErrorResponse.render e
            = "received error response " ++ e.code ++ ": " ++ e.message) := by
  refine ⟨fun h404 => ?_, fun h202 => ?_, fun e h404 h202 hbody => ?_⟩
  · simp [DeleteToken, h404]
  · simp [DeleteToken, h202]
  · refine ⟨?_, rfl⟩
    simp [DeleteToken, h404, h202, hbody]

/-- Witness for C5: a 404 response, a 202 response, and a 500 response with
a decodable error body, each at concrete inputs. -/
theorem deleteToken_status_dispatch_witness :
    DeleteToken (.response ⟨404, none, none⟩) = none
  ∧ DeleteToken (.response ⟨202, none, none⟩) = none
  ∧ DeleteToken (.response ⟨500, some ⟨"500-a", "boom"⟩, none⟩)
      = some (.remote ⟨"500-a", "boom"⟩) :=
  ⟨(deleteToken_status_dispatch ⟨404, none, none⟩).1 rfl,
   (deleteToken_status_dispatch ⟨202, none, none⟩).2.1 rfl,
   ((deleteToken_status_dispatch ⟨500, some ⟨"500-a", "boom"⟩, none⟩).2.2
      ⟨"500-a", "boom"⟩ (by decide) (by decide) rfl).1⟩

/-- C1: when the POST returns a status `>= 400` other than 409,
`CreateToken` performs no read and returns the structured remote error
decoded from the response body; on any other status (409 included) it
performs a follow-up read of the named credential and returns that read's
result, never the create response body. -/
theorem createToken_response_dispatch (env : CreateEnv) (token : HECToken) (r : HttpResponse)
    (hpost : env.postResponse = .response r) :
    (400 ≤ r.statusCode → r.statusCode ≠ 409 →
      (CreateToken env token).readName = none
        ∧ ∀ e, r.errorBody = some e → (CreateToken env token).result = .error (.remote e))
  ∧ (r.statusCode < 400 ∨ r.statusCode = 409 →
      (CreateToken env token).readName = some token.spec.name
        ∧ (CreateToken env token).result = getToken (env.getResponse token.spec.name)) := by
  have hname : (CreateToken env token).payloadSpec.name = token.spec.name := by
    rw [createToken_payloadSpec]
    split <;> rfl
  unfold CreateToken at hname ⊢
  rw [hpost] at hname ⊢
  dsimp only at hname ⊢
  constructor
  · intro hge hne
    rw [if_pos ⟨hge, hne⟩]
    cases hb : r.errorBody with
    | none => exact ⟨rfl, fun e he => by simp [hb] at he⟩
    | some e => exact ⟨rfl, fun e2 he => by simp [hb] at he; simp [← he]⟩
  · intro hlt
    have hcond : ¬(400 ≤ r.statusCode ∧ r.statusCode ≠ 409) := by
      rcases hlt with h | h
      · exact fun hc => absurd hc.1 (by omega)
      · exact fun hc => hc.2 h
    rw [if_neg hcond] at hname ⊢
    exact ⟨by rw [hname], by rw [hname]⟩

def c1ErrEnv : CreateEnv :=
  ⟨.response ⟨400, some ⟨"400-x", "boom"⟩, none⟩, fun _ => .transportFailure⟩

def c1OkEnv : CreateEnv :=
  ⟨.response ⟨409, none, none⟩,
   fun _ => .response ⟨200, none, some ⟨⟨"bar", "", []⟩, "sekrit"⟩⟩⟩

def c1Token : HECToken := ⟨⟨"bar", "", []⟩, ""⟩

/-- Witness for C1: a 400 response with a decodable error body yields the
remote error and no read; a 409 response yields the follow-up read's
record. -/
theorem createToken_response_dispatch_witness :
    ((CreateToken c1ErrEnv c1Token).readName = none
      ∧ (CreateToken c1ErrEnv c1Token).result = .error (.remote ⟨"400-x", "boom"⟩))
  ∧ ((CreateToken c1OkEnv c1Token).readName = some "bar"
      ∧ (CreateToken c1OkEnv c1Token).result
          = getToken (c1OkEnv.getResponse "bar")) := by
  have h1 := (createToken_response_dispatch c1ErrEnv c1Token
    ⟨400, some ⟨"400-x", "boom"⟩, none⟩ rfl).1 (by decide) (by decide)
  have h2 := (createToken_response_dispatch c1OkEnv c1Token
    ⟨409, none, none⟩ rfl).2 (Or.inr rfl)
  exact ⟨⟨h1.1, h1.2 _ rfl⟩, h2⟩

/-! ### Theorems about the SplunkToken reconciler -/

/-- C2: a live SplunkToken past its configured max age makes reconcile
request deletion of the record itself and return success, with no remote
call in the same pass. -/
theorem tokenReconcile_rotation (cfg : General) (env : TokenEnv) (ns : String)
    (tok : SplunkToken)
    (hfound : env.getTokenResult = .found tok)
    (hdel : tok.deletionTimestamp = none)
    (hage : tok.creationTimestamp + cfg.tokenMaxAge < env.now)
    (hok : env.deleteObjectOk = true) :
    TokenReconcile cfg env ns = (.ok (), [.deleteTokenObject tok])
      ∧ ∀ e ∈ (TokenReconcile cfg env ns).2, e.isRemoteCall = false := by
  have key : TokenReconcile cfg env ns = (.ok (), [.deleteTokenObject tok]) := by
    unfold TokenReconcile
    rw [hfound]
    dsimp only
    rw [hdel]
    dsimp only
    rw [if_pos hage, hok]
    simp
  refine ⟨key, ?_⟩
  rw [key]
  intro e he
  simp only [List.mem_singleton] at he
  subst he
  rfl

def c2Cfg : General := { tokenMaxAge := 10, splunkInstance := "inst" }

def c2Tok : SplunkToken :=
  { name := "cluster", creationTimestamp := 0, deletionTimestamp := none,
    finalizers := [], ownerRefs := [], spec := ⟨"cid", "", []⟩ }

def c2Env : TokenEnv :=
  { now := 100, getTokenResult := .found c2Tok, remoteDelete := some .transport,
    updateOk := false, deleteObjectOk := true, getSecretResult := .storeError,
    remoteCreate := .error .transport, createSecretOk := false }

/-- Witness for C2 at a concrete stale token. -/
theorem tokenReconcile_rotation_witness :
    TokenReconcile c2Cfg c2Env "test-namespace"
      = (.ok (), [.deleteTokenObject c2Tok]) :=
  (tokenReconcile_rotation c2Cfg c2Env "test-namespace" c2Tok rfl rfl (by decide) rfl).1

/-- C3: a SplunkToken carrying a deletion timestamp makes reconcile call the
remote delete with `spec.name` exactly once; on success the finalizer is
removed and the update persisted and the pass succeeds; on failure the
client error is returned and no store write is attempted. -/
theorem tokenReconcile_deletion (cfg : General) (env : TokenEnv) (ns : String)
    (tok : SplunkToken) (ts : Int)
    (hfound : env.getTokenResult = .found tok)
    (hdel : tok.deletionTimestamp = some ts) :
    List.count (Event.remoteDeleteToken tok.spec.name) (TokenReconcile cfg env ns).2 = 1
  ∧ (∀ e ∈ (TokenReconcile cfg env ns).2,
      e.isRemoteCall = true → e = .remoteDeleteToken tok.spec.name)
  ∧ (env.remoteDelete = none → env.updateOk = true →
      TokenReconcile cfg env ns
        = (.ok (), [.remoteDeleteToken tok.spec.name,
                    .updateToken (removeFinalizer tok TokenFinalizer)])
        ∧ TokenFinalizer ∉ (removeFinalizer tok TokenFinalizer).finalizers)
  ∧ (∀ e, env.remoteDelete = some e →
      TokenReconcile cfg env ns
        = (.error (.client e), [.remoteDeleteToken tok.spec.name])
        ∧ ∀ ev ∈ (TokenReconcile cfg env ns).2, ev.isStoreWrite = false) := by
  have hnofin : TokenFinalizer ∉ (removeFinalizer tok TokenFinalizer).finalizers := by
    simp [removeFinalizer]
  cases hrd : env.remoteDelete with
  | some e =>
    have hshape : TokenReconcile cfg env ns
        = (.error (.client e), [.remoteDeleteToken tok.spec.name]) := by
      unfold TokenReconcile
      rw [hfound]
      dsimp only
      rw [hdel]
      dsimp only
      rw [hrd]
    refine ⟨?_, ?_, fun h => Option.noConfusion h, fun e2 he2 => ?_⟩
    · rw [hshape]; simp
    · rw [hshape]; intro ev hev _; simpa using hev
    · obtain rfl : e = e2 := by injection he2
      rw [hshape]
      exact ⟨rfl, by intro ev hev; simp only [List.mem_singleton] at hev; subst hev; rfl⟩
  | none =>
    rcases Bool.eq_false_or_eq_true env.updateOk with hup | hup
    · have hshape : TokenReconcile cfg env ns
          = (.ok (), [.remoteDeleteToken tok.spec.name,
                      .updateToken (removeFinalizer tok TokenFinalizer)]) := by
        unfold TokenReconcile
        rw [hfound]
        dsimp only
        rw [hdel]
        dsimp only
        rw [hrd]
        dsimp only
        rw [if_pos hup]
      refine ⟨?_, ?_, fun _ _ => ⟨hshape, hnofin⟩,
        fun e2 he2 => Option.noConfusion he2⟩
      · rw [hshape]; simp
      · rw [hshape]
        intro ev hev hrc
        simp only [List.mem_cons, List.mem_singleton, List.not_mem_nil, or_false] at hev
        rcases hev with h | h <;> subst h
        · rfl
        · exact absurd hrc (by simp [Event.isRemoteCall])
    · have hshape : TokenReconcile cfg env ns
          = (.error .store, [.remoteDeleteToken tok.spec.name,
                             .updateToken (removeFinalizer tok TokenFinalizer)]) := by
        unfold TokenReconcile
        rw [hfound]
        dsimp only
        rw [hdel]
        dsimp only
        rw [hrd]
        dsimp only
        rw [if_neg (by simp [hup])]
      refine ⟨?_, ?_, fun _ h => absurd h (by simp [hup]),
        fun e2 he2 => Option.noConfusion he2⟩
      · rw [hshape]; simp
      · rw [hshape]
        intro ev hev hrc
        simp only [List.mem_cons, List.mem_singleton, List.not_mem_nil, or_false] at hev
        rcases hev with h | h <;> subst h
        · rfl
        · exact absurd hrc (by simp [Event.isRemoteCall])

def c3Tok : SplunkToken :=
  { name := "cluster", creationTimestamp := 0, deletionTimestamp := some 5,
    finalizers := [TokenFinalizer], ownerRefs := [],
    spec := ⟨"cid", "", []⟩ }

def c3Env : TokenEnv :=
  { now := 1, getTokenResult := .found c3Tok, remoteDelete := none,
    updateOk := true, deleteObjectOk := false, getSecretResult := .storeError,
    remoteCreate := .error .transport, createSecretOk := false }

/-- Witness for C3 at a concrete token under deletion with a succeeding
remote delete. -/
theorem tokenReconcile_deletion_witness :
    List.count (Event.remoteDeleteToken "cid") (TokenReconcile c2Cfg c3Env "test-namespace").2 = 1
  ∧ TokenReconcile c2Cfg c3Env "test-namespace"
      = (.ok (), [.remoteDeleteToken "cid",
                  .updateToken (removeFinalizer c3Tok TokenFinalizer)]) := by
  have h := tokenReconcile_deletion c2Cfg c3Env "test-namespace" c3Tok 5 rfl rfl
  exact ⟨h.1, (h.2.2.1 rfl rfl).1⟩

/-- C9: in the converged state — the token exists, is not being deleted, is
not past max age, and its secret exists — a reconcile pass makes zero store
writes and zero remote calls and succeeds; likewise a ClusterDeployment
pass whose stored token spec already carries the computed indexes makes
zero store writes. -/
theorem reconcile_idempotent_converged
    (cfg : General) (env : TokenEnv) (ns : String) (tok : SplunkToken) (s : Secret)
    (cdCfg : SplunkIndexConfig) (cdEnv : CDEnv) (cd : ClusterDeployment) (t : SplunkToken) :
    (env.getTokenResult = .found tok → tok.deletionTimestamp = none →
      ¬tok.creationTimestamp + cfg.tokenMaxAge < env.now →
      env.getSecretResult = .found s →
      TokenReconcile cfg env ns = (.ok (), []))
  ∧ (cdEnv.getClusterResult = .found cd →
      cdEnv.getTokenResult = .found t →
      (computedIndexes cdCfg cd).defaultIndex = t.spec.defaultIndex →
      (computedIndexes cdCfg cd).allowedIndexes = t.spec.allowedIndexes →
      (CDReconcile cdCfg cdEnv).2 = []) := by
  constructor
  · intro hfound hdel hage hsec
    unfold TokenReconcile
    rw [hfound]
    dsimp only
    rw [hdel]
    dsimp only
    rw [if_neg hage, hsec]
  · intro hcd htok hdef hallowed
    unfold CDReconcile
    rw [hcd]
    dsimp only
    cases List.lookup ClusterIDLabel cd.labels with
    | none => rfl
    | some tokenName =>
      dsimp only
      rw [htok]
      dsimp only
      rw [if_pos ⟨hdef, hallowed⟩]

def c9Secret : Secret :=
  { name := OwnedObjectName, inNamespace := "test-namespace",
    data := [], immutable := true, ownerRef := some "cluster" }

def c9Env : TokenEnv :=
  { now := 5, getTokenResult := .found c2Tok, remoteDelete := some .transport,
    updateOk := false, deleteObjectOk := false, getSecretResult := .found c9Secret,
    remoteCreate := .error .transport, createSecretOk := false }

def c9CD : ClusterDeployment :=
  { name := "foo", labels := [(ClusterIDLabel, "foo-cluster-id")] }

def c9CDTok : SplunkToken :=
  { name := TokenObjectName, creationTimestamp := 0, deletionTimestamp := none,
    finalizers := [], ownerRefs := ["foo"],
    spec := ⟨"foo-cluster-id", "splunk_index", ["another_index"]⟩ }

def c9CDCfg : SplunkIndexConfig :=
  { classic := ⟨"splunk_index", ["another_index"]⟩
    hcp := ⟨"hcp_index", ["another_hcp_index"]⟩ }

def c9CDEnv : CDEnv :=
  { getClusterResult := .found c9CD, getTokenResult := .found c9CDTok,
    updateOk := false, createOk := false }

/-- Witness for C9 at a converged token and a matching stored spec. -/
theorem reconcile_idempotent_converged_witness :
    TokenReconcile c2Cfg c9Env "test-namespace" = (.ok (), [])
  ∧ (CDReconcile c9CDCfg c9CDEnv).2 = [] := by
  have h := reconcile_idempotent_converged c2Cfg c9Env "test-namespace" c2Tok c9Secret
    c9CDCfg c9CDEnv c9CD c9CDTok
  exact ⟨h.1 rfl rfl (by decide) rfl, h.2 rfl rfl (by decide) (by decide)⟩

theorem addFinalizer_fst_name (t : SplunkToken) (f : String) :
    (addFinalizer t f).1.name = t.name := by
  unfold addFinalizer
  split <;> rfl

theorem addFinalizer_fst_spec (t : SplunkToken) (f : String) :
    (addFinalizer t f).1.spec = t.spec := by
  unfold addFinalizer
  split <;> rfl

theorem addFinalizer_mem (t : SplunkToken) (f : String) :
    f ∈ (addFinalizer t f).1.finalizers := by
  unfold addFinalizer
  split <;> simp_all

theorem addFinalizer_false (t : SplunkToken) (f : String)
    (h : (addFinalizer t f).2 = false) : f ∈ t.finalizers := by
  unfold addFinalizer at h
  by_cases hf : f ∈ t.finalizers
  · exact hf
  · rw [if_neg hf] at h
    cases h

/-- The secret payload, with the collector URI folded in as literal text. -/
theorem outputsConf_collectorUri (cfg : General) (v : String) :
    outputsConf v (collectorUri cfg)
      = "[httpout]\nhttpEventCollectorToken = " ++ v ++ "\nuri = https://http-inputs-"
          ++ cfg.splunkInstance ++ ".splunkcloud.com:443" := by
  unfold outputsConf collectorUri
  simp only [String.append_assoc]
  rfl

/-- Exhaustive characterization of the traces a SplunkToken reconcile pass
on a found token can produce. -/
theorem tokenReconcile_trace_cases (cfg : General) (env : TokenEnv) (ns : String)
    (tok : SplunkToken) (hfound : env.getTokenResult = .found tok) :
    (TokenReconcile cfg env ns).2 = []
  ∨ (TokenReconcile cfg env ns).2 = [.remoteDeleteToken tok.spec.name]
  ∨ (TokenReconcile cfg env ns).2
      = [.remoteDeleteToken tok.spec.name,
         .updateToken (removeFinalizer tok TokenFinalizer)]
  ∨ (TokenReconcile cfg env ns).2 = [.deleteTokenObject tok]
  ∨ ((addFinalizer tok TokenFinalizer).2 = true ∧
      ((TokenReconcile cfg env ns).2
          = [.updateToken (addFinalizer tok TokenFinalizer).1]
        ∨ (∃ e, env.remoteCreate = .error e ∧
            (TokenReconcile cfg env ns).2
              = [.updateToken (addFinalizer tok TokenFinalizer).1,
                 .remoteCreateToken tok.spec])
        ∨ (∃ hec, env.remoteCreate = .ok hec ∧
            (TokenReconcile cfg env ns).2
              = [.updateToken (addFinalizer tok TokenFinalizer).1,
                 .remoteCreateToken tok.spec,
                 .createSecret (setControllerReference (addFinalizer tok TokenFinalizer).1
                   (newSecretObject cfg ns hec.value))])))
  ∨ ((addFinalizer tok TokenFinalizer).2 = false ∧
      ((∃ e, env.remoteCreate = .error e ∧
          (TokenReconcile cfg env ns).2 = [.remoteCreateToken tok.spec])
        ∨ (∃ hec, env.remoteCreate = .ok hec ∧
            (TokenReconcile cfg env ns).2
              = [.remoteCreateToken tok.spec,
                 .createSecret (setControllerReference (addFinalizer tok TokenFinalizer).1
                   (newSecretObject cfg ns hec.value))]))) := by
  have hspec : (addFinalizer tok TokenFinalizer).1.spec = tok.spec :=
    addFinalizer_fst_spec tok TokenFinalizer
  cases hdt : tok.deletionTimestamp with
  | some ts =>
    cases hrd : env.remoteDelete with
    | some e =>
      refine Or.inr (Or.inl ?_)
      unfold TokenReconcile
      rw [hfound]
      dsimp only
      rw [hdt]
      dsimp only
      rw [hrd]
    | none =>
      refine Or.inr (Or.inr (Or.inl ?_))
      unfold TokenReconcile
      rw [hfound]
      dsimp only
      rw [hdt]
      dsimp only
      rw [hrd]
      dsimp only
      rcases Bool.eq_false_or_eq_true env.updateOk with hup | hup
      · rw [if_pos hup]
      · rw [if_neg (by simp [hup])]
  | none =>
    by_cases hage : tok.creationTimestamp + cfg.tokenMaxAge < env.now
    · refine Or.inr (Or.inr (Or.inr (Or.inl ?_)))
      unfold TokenReconcile
      rw [hfound]
      dsimp only
      rw [hdt]
      dsimp only
      rw [if_pos hage]
      rcases Bool.eq_false_or_eq_true env.deleteObjectOk with hok | hok
      · rw [if_pos hok]
      · rw [if_neg (by simp [hok])]
    · cases hsec : env.getSecretResult with
      | storeError =>
        refine Or.inl ?_
        unfold TokenReconcile
        rw [hfound]
        dsimp only
        rw [hdt]
        dsimp only
        rw [if_neg hage, hsec]
      | found s =>
        refine Or.inl ?_
        unfold TokenReconcile
        rw [hfound]
        dsimp only
        rw [hdt]
        dsimp only
        rw [if_neg hage, hsec]
      | notFound =>
        have hbase : TokenReconcile cfg env ns =
            (if (addFinalizer tok TokenFinalizer).2 then
              if env.updateOk then
                ((createPhase cfg env ns (addFinalizer tok TokenFinalizer).1).1,
                  .updateToken (addFinalizer tok TokenFinalizer).1 ::
                    (createPhase cfg env ns (addFinalizer tok TokenFinalizer).1).2)
              else
                (.error .store, [.updateToken (addFinalizer tok TokenFinalizer).1])
            else
              createPhase cfg env ns (addFinalizer tok TokenFinalizer).1) := by
          unfold TokenReconcile
          rw [hfound]
          dsimp only
          rw [hdt]
          dsimp only
          rw [if_neg hage, hsec]
        rcases Bool.eq_false_or_eq_true (addFinalizer tok TokenFinalizer).2 with hf | hf
        · rw [if_pos hf] at hbase
          rcases Bool.eq_false_or_eq_true env.updateOk with hup | hup
          · rw [if_pos hup] at hbase
            cases hrc : env.remoteCreate with
            | error e =>
              refine Or.inr (Or.inr (Or.inr (Or.inr (Or.inl ⟨hf, Or.inr (Or.inl ⟨e, rfl, ?_⟩)⟩))))
              rw [hbase]
              unfold createPhase
              rw [hrc]
              dsimp only
              rw [hspec]
            | ok hec =>
              refine Or.inr (Or.inr (Or.inr (Or.inr (Or.inl
                ⟨hf, Or.inr (Or.inr ⟨hec, rfl, ?_⟩)⟩))))
              rw [hbase]
              unfold createPhase
              rw [hrc]
              dsimp only
              rcases Bool.eq_false_or_eq_true env.createSecretOk with hcs | hcs
              · rw [if_pos hcs]
                dsimp only
                rw [hspec]
              · rw [if_neg (by simp [hcs])]
                dsimp only
                rw [hspec]
          · rw [if_neg (by simp [hup])] at hbase
            refine Or.inr (Or.inr (Or.inr (Or.inr (Or.inl ⟨hf, Or.inl ?_⟩))))
            rw [hbase]
        · rw [if_neg (by simp [hf])] at hbase
          cases hrc : env.remoteCreate with
          | error e =>
            refine Or.inr (Or.inr (Or.inr (Or.inr (Or.inr ⟨hf, Or.inl ⟨e, rfl, ?_⟩⟩))))
            rw [hbase]
            unfold createPhase
            rw [hrc]
            dsimp only
            rw [hspec]
          | ok hec =>
            refine Or.inr (Or.inr (Or.inr (Or.inr (Or.inr ⟨hf, Or.inr ⟨hec, rfl, ?_⟩⟩))))
            rw [hbase]
            unfold createPhase
            rw [hrc]
            dsimp only
            rcases Bool.eq_false_or_eq_true env.createSecretOk with hcs | hcs
            · rw [if_pos hcs]
              dsimp only
              rw [hspec]
            · rw [if_neg (by simp [hcs])]
              dsimp only
              rw [hspec]

theorem eq_append_cons_of_singleton {A : Type} {x y : A} {l r : List A}
    (h : [x] = l ++ y :: r) : l = [] ∧ x = y ∧ r = [] := by
  cases l with
  | nil => simp_all
  | cons a l2 =>
    simp only [List.cons_append, List.cons.injEq] at h
    exact absurd h.2.symm (by simp)

/-- C6: whenever a reconcile pass on a found token reaches the remote
create, the token stored at that point of the pass (the found token as
modified by the updates persisted earlier in the same pass) carries the
finalizer: the finalizer is persisted before `CreateToken` is invoked. -/
theorem finalizer_persisted_before_create (cfg : General) (env : TokenEnv) (ns : String)
    (tok : SplunkToken) (pre rest : List Event) (sp : SplunkTokenSpec)
    (hfound : env.getTokenResult = .found tok)
    (hsplit : (TokenReconcile cfg env ns).2 = pre ++ Event.remoteCreateToken sp :: rest) :
    TokenFinalizer ∈ (storedToken tok pre).finalizers := by
  rcases tokenReconcile_trace_cases cfg env ns tok hfound with h | h | h | h | ⟨hf, h⟩ | ⟨hf, h⟩
  · rw [h] at hsplit
    exact absurd hsplit (by simp)
  · rw [h] at hsplit
    rcases pre with _ | ⟨a, _ | ⟨b, pre3⟩⟩ <;> simp_all
  · rw [h] at hsplit
    rcases pre with _ | ⟨a, _ | ⟨b, pre3⟩⟩ <;> simp_all
  · rw [h] at hsplit
    rcases pre with _ | ⟨a, _ | ⟨b, pre3⟩⟩ <;> simp_all
  · rcases h with h | ⟨e, hrc, h⟩ | ⟨hec, hrc, h⟩ <;> rw [h] at hsplit
    · rcases pre with _ | ⟨a, _ | ⟨b, pre3⟩⟩ <;> simp_all
    · rcases pre with _ | ⟨a, _ | ⟨b, pre3⟩⟩
      · simp at hsplit
      · obtain rfl : a = Event.updateToken (addFinalizer tok TokenFinalizer).1 := by
          simp_all
        simpa [storedToken] using addFinalizer_mem tok TokenFinalizer
      · simp_all
    · rcases pre with _ | ⟨a, _ | ⟨b, pre3⟩⟩
      · simp at hsplit
      · obtain rfl : a = Event.updateToken (addFinalizer tok TokenFinalizer).1 := by
          simp_all
        simpa [storedToken] using addFinalizer_mem tok TokenFinalizer
      · simp only [List.cons_append, List.cons.injEq] at hsplit
        exact absurd (eq_append_cons_of_singleton hsplit.2.2).2.1 (by simp)
  · rcases h with ⟨e, hrc, h⟩ | ⟨hec, hrc, h⟩ <;> rw [h] at hsplit
    · rcases pre with _ | ⟨a, _ | ⟨b, pre3⟩⟩
      · simpa [storedToken] using addFinalizer_false tok TokenFinalizer hf
      · simp_all
      · simp_all
    · rcases pre with _ | ⟨a, _ | ⟨b, pre3⟩⟩
      · simpa [storedToken] using addFinalizer_false tok TokenFinalizer hf
      · simp_all
      · simp_all

def c6Tok : SplunkToken :=
  { name := "cluster", creationTimestamp := 0, deletionTimestamp := none,
    finalizers := [], ownerRefs := [], spec := ⟨"cid", "", []⟩ }

def c6Hec : HECToken := ⟨⟨"cid", "", []⟩, "tokval"⟩

def c6Env : TokenEnv :=
  { now := 5, getTokenResult := .found c6Tok, remoteDelete := none,
    updateOk := true, deleteObjectOk := true, getSecretResult := .notFound,
    remoteCreate := .ok c6Hec, createSecretOk := true }

/-- Witness for C6 at a concrete pass that adds and persists the finalizer
and then calls the remote create. -/
theorem finalizer_persisted_before_create_witness :
    TokenFinalizer ∈
      (storedToken c6Tok
        [Event.updateToken (addFinalizer c6Tok TokenFinalizer).1]).finalizers :=
  finalizer_persisted_before_create c2Cfg c6Env "test-namespace" c6Tok
    [Event.updateToken (addFinalizer c6Tok TokenFinalizer).1]
    [Event.createSecret (setControllerReference (addFinalizer c6Tok TokenFinalizer).1
       (newSecretObject c2Cfg "test-namespace" c6Hec.value))]
    ⟨"cid", "", []⟩ rfl (by decide)

/-- C10: every secret the token reconciler creates holds, under the single
fixed key, exactly the bytes of the `outputs.conf` template filled with the
returned token value and the collector URI computed from the instance name,
and is immutable with an ownership link to the SplunkToken. -/
theorem secret_payload_ownership (cfg : General) (env : TokenEnv) (ns : String)
    (tok : SplunkToken) (hec : HECToken)
    (hfound : env.getTokenResult = .found tok)
    (hcreate : env.remoteCreate = .ok hec) :
    ∀ s, Event.createSecret s ∈ (TokenReconcile cfg env ns).2 →
      s.data = [(SecretDataKey,
        "[httpout]\nhttpEventCollectorToken = " ++ hec.value
          ++ "\nuri = https://http-inputs-" ++ cfg.splunkInstance
          ++ ".splunkcloud.com:443")]
      ∧ s.immutable = true
      ∧ s.ownerRef = some tok.name
      ∧ s.name = OwnedObjectName := by
  intro s hs
  rcases tokenReconcile_trace_cases cfg env ns tok hfound with h | h | h | h | ⟨hf, h⟩ | ⟨hf, h⟩
  · rw [h] at hs
    simp at hs
  · rw [h] at hs
    simp at hs
  · rw [h] at hs
    simp at hs
  · rw [h] at hs
    simp at hs
  · rcases h with h | ⟨e, hrc, h⟩ | ⟨hec2, hrc, h⟩ <;> rw [h] at hs
    · simp at hs
    · simp at hs
    · injection hcreate.symm.trans hrc with hv
      subst hv
      simp only [List.mem_cons, List.not_mem_nil, or_false] at hs
      rcases hs with hs | hs | hs
      · simp at hs
      · simp at hs
      · obtain rfl :
            s = setControllerReference (addFinalizer tok TokenFinalizer).1
                  (newSecretObject cfg ns hec.value) := by
          injection hs
        refine ⟨?_, rfl, ?_, rfl⟩
        · simp [setControllerReference, newSecretObject, outputsConf_collectorUri]
        · simp [setControllerReference, addFinalizer_fst_name]
  · rcases h with ⟨e, hrc, h⟩ | ⟨hec2, hrc, h⟩ <;> rw [h] at hs
    · simp at hs
    · injection hcreate.symm.trans hrc with hv
      subst hv
      simp only [List.mem_cons, List.not_mem_nil, or_false] at hs
      rcases hs with hs | hs
      · simp at hs
      · obtain rfl :
            s = setControllerReference (addFinalizer tok TokenFinalizer).1
                  (newSecretObject cfg ns hec.value) := by
          injection hs
        refine ⟨?_, rfl, ?_, rfl⟩
        · simp [setControllerReference, newSecretObject, outputsConf_collectorUri]
        · simp [setControllerReference, addFinalizer_fst_name]

def c10Secret : Secret :=
  setControllerReference (addFinalizer c6Tok TokenFinalizer).1
    (newSecretObject c2Cfg "test-namespace" c6Hec.value)

/-- Witness for C10 at the concrete pass of the C6 witness. -/
theorem secret_payload_ownership_witness :
    c10Secret.data = [(SecretDataKey,
      "[httpout]\nhttpEventCollectorToken = " ++ c6Hec.value
        ++ "\nuri = https://http-inputs-" ++ c2Cfg.splunkInstance
        ++ ".splunkcloud.com:443")]
    ∧ c10Secret.immutable = true
    ∧ c10Secret.ownerRef = some c6Tok.name
    ∧ c10Secret.name = OwnedObjectName :=
  secret_payload_ownership c2Cfg c6Env "test-namespace" c6Tok c6Hec rfl rfl
    c10Secret (by decide)

/-! ### Theorems about the ClusterDeployment reconciler -/

/-- C8: the cluster-type label value "management-cluster" selects the
management (HCP) index configuration; any other value, or no label at all,
selects the default (classic) configuration. -/
theorem cd_index_selection (cfg : SplunkIndexConfig) (cd : ClusterDeployment) :
    (List.lookup ClusterTypeLabel cd.labels = some "management-cluster" →
      computedIndexes cfg cd = cfg.hcp)
  ∧ (∀ v, List.lookup ClusterTypeLabel cd.labels = some v →
      v ≠ "management-cluster" → computedIndexes cfg cd = cfg.classic)
  ∧ (List.lookup ClusterTypeLabel cd.labels = none →
      computedIndexes cfg cd = cfg.classic) := by
  refine ⟨fun h => ?_, fun v h hne => ?_, fun h => ?_⟩
  · unfold computedIndexes
    rw [h]
    simp only [Option.getD_some]
    simp
  · unfold computedIndexes
    rw [h]
    simp only [Option.getD_some]
    rw [if_neg hne]
  · unfold computedIndexes
    rw [h]
    simp only [Option.getD_none]
    rw [if_neg (by decide)]

def c8CDManagement : ClusterDeployment :=
  ⟨"foo", [(ClusterIDLabel, "id1"), (ClusterTypeLabel, "management-cluster")]⟩

def c8CDClassic : ClusterDeployment := ⟨"foo", [(ClusterIDLabel, "id1")]⟩

/-- Witness for C8: a management-cluster label yields the HCP configuration,
an absent label yields the classic configuration. -/
theorem cd_index_selection_witness :
    computedIndexes c9CDCfg c8CDManagement = c9CDCfg.hcp
  ∧ computedIndexes c9CDCfg c8CDClassic = c9CDCfg.classic :=
  ⟨(cd_index_selection c9CDCfg c8CDManagement).1 (by decide),
   (cd_index_selection c9CDCfg c8CDClassic).2.2 (by decide)⟩

def c7CD : ClusterDeployment := ⟨"foo", [(ClusterIDLabel, "foo-cluster-id")]⟩

def c7Cfg : SplunkIndexConfig := ⟨⟨"", []⟩, ⟨"hcp_index", ["another_hcp_index"]⟩⟩

def c7Env : CDEnv :=
  { getClusterResult := .found c7CD, getTokenResult := .notFound,
    updateOk := true, createOk := true }

/-- Counterexample to C7 as stated: with a classic index configuration whose
default index is empty and whose allowed index list is empty, a
ClusterDeployment carrying the identity label and no stored SplunkToken
makes the reconcile pass end successfully with no store write at all — the
absent token is not created, because the "spec unchanged" comparison against
the zero-valued token short-circuits before the existence check. -/
theorem cd_absent_create_counterexample :
    c7Env.getClusterResult = GetResult.found c7CD
  ∧ List.lookup ClusterIDLabel c7CD.labels = some "foo-cluster-id"
  ∧ c7Env.getTokenResult = GetResult.notFound
  ∧ c7Env.createOk = true
  ∧ CDReconcile c7Cfg c7Env = (.ok (), []) :=
  ⟨rfl, by decide, rfl, rfl, rfl⟩

/-- C7 (amended): on a ClusterDeployment with the identity label, when the
token is absent and the computed indexes are not both zero-valued,
reconcile creates the token with the computed spec and an owner reference;
when the token is absent and the computed default index and allowed indexes
equal the zero values, reconcile makes no store write; when the token is
present with exactly the computed indexes (order-sensitive), reconcile
makes no store write; when present and different, reconcile overwrites the
spec and refreshes the owner reference. -/
theorem cdReconcile_write_cases (cfg : SplunkIndexConfig) (env : CDEnv)
    (cd : ClusterDeployment) (tokenName : String)
    (hcd : env.getClusterResult = .found cd)
    (hid : List.lookup ClusterIDLabel cd.labels = some tokenName) :
    (env.getTokenResult = .notFound →
      ¬((computedIndexes cfg cd).defaultIndex = ""
          ∧ (computedIndexes cfg cd).allowedIndexes = []) →
      env.createOk = true →
      CDReconcile cfg env = (.ok (),
        [.createToken (setOwnerReference cd
          { emptySplunkToken with spec :=
              { name := tokenName
                defaultIndex := (computedIndexes cfg cd).defaultIndex
                allowedIndexes := (computedIndexes cfg cd).allowedIndexes } })]))
  ∧ (env.getTokenResult = .notFound →
      (computedIndexes cfg cd).defaultIndex = ""
        ∧ (computedIndexes cfg cd).allowedIndexes = [] →
      CDReconcile cfg env = (.ok (), []))
  ∧ (∀ t, env.getTokenResult = .found t →
      (computedIndexes cfg cd).defaultIndex = t.spec.defaultIndex →
      (computedIndexes cfg cd).allowedIndexes = t.spec.allowedIndexes →
      CDReconcile cfg env = (.ok (), []))
  ∧ (∀ t, env.getTokenResult = .found t → env.updateOk = true →
      ¬((computedIndexes cfg cd).defaultIndex = t.spec.defaultIndex
          ∧ (computedIndexes cfg cd).allowedIndexes = t.spec.allowedIndexes) →
      CDReconcile cfg env = (.ok (),
        [.updateToken (setOwnerReference cd
          { t with spec :=
              { name := tokenName
                defaultIndex := (computedIndexes cfg cd).defaultIndex
                allowedIndexes := (computedIndexes cfg cd).allowedIndexes } })])) := by
  refine ⟨fun htok hne hok => ?_, fun htok hz => ?_,
    fun t htok hdef hall => ?_, fun t htok hok hne => ?_⟩
  · unfold CDReconcile
    rw [hcd]
    dsimp only
    rw [hid]
    dsimp only
    rw [htok]
    dsimp only
    rw [if_neg (by simpa [emptySplunkToken] using hne)]
    rw [hok]
    simp
  · unfold CDReconcile
    rw [hcd]
    dsimp only
    rw [hid]
    dsimp only
    rw [htok]
    dsimp only
    rw [if_pos (by simpa [emptySplunkToken] using hz)]
  · unfold CDReconcile
    rw [hcd]
    dsimp only
    rw [hid]
    dsimp only
    rw [htok]
    dsimp only
    rw [if_pos ⟨hdef, hall⟩]
  · unfold CDReconcile
    rw [hcd]
    dsimp only
    rw [hid]
    dsimp only
    rw [htok]
    dsimp only
    rw [if_neg hne]
    rw [hok]
    simp

def c7wEnv : CDEnv :=
  { getClusterResult := .found c9CD, getTokenResult := .notFound,
    updateOk := true, createOk := true }

/-- Witness for the amended C7: an absent token under a non-empty computed
configuration is created with the computed spec and an owner reference. -/
theorem cdReconcile_write_cases_witness :
    CDReconcile c9CDCfg c7wEnv = (.ok (),
      [.createToken (setOwnerReference c9CD
        { emptySplunkToken with spec :=
            { name := "foo-cluster-id"
              defaultIndex := (computedIndexes c9CDCfg c9CD).defaultIndex
              allowedIndexes := (computedIndexes c9CDCfg c9CD).allowedIndexes } })]) :=
  (cdReconcile_write_cases c9CDCfg c7wEnv c9CD "foo-cluster-id" rfl (by decide)).1
    rfl (by decide) rfl

end SplunkOperator
